import Mathlib

/-!
# Verification of the Elo ranking system core

Shallow embedding of the C++ Elo ranking system (`Player`, `Match`,
`RankingSystem`) and proofs of its specification's claims.

Modelling conventions:
* C++ `double` is modelled as `ℝ` (exact real arithmetic); the Elo
  formula's `pow(10.0, e)` becomes real exponentiation `(10:ℝ) ^ e`.
* The non-negative `int` statistic counters are modelled as `ℕ`.
* A `Player&` reference held by a `Match` is modelled at two levels:
  `Match.processMatch` on a pair of distinct players (the ordinary case),
  and `RankingSystem.recordMatch` on a list of players where the two
  references are positions in the list, so that both references naming
  the same player (aliasing) is represented faithfully.
* File I/O is modelled by passing the file content explicitly: a save
  produces a list of records, a load consumes `Option (List SavedRecord)`
  where `none` is a file that cannot be opened.
-/

/-- `Player` as in `Player.h`: a name, a floating rating, and the four
statistic counters `gamesPlayed`, `wins`, `losses`, `draws`. -/
structure Player where
  name : String
  rating : ℝ
  gamesPlayed : ℕ
  wins : ℕ
  losses : ℕ
  draws : ℕ

namespace Player

/-- The `Player(std::string name, double rating)` constructor: stores the
name and rating, zeroes all counters, and clamps a negative rating to
`0.0` in the constructor body (`if (this->rating < 0) this->rating = 0.0;`). -/
noncomputable def make (name : String) (rating : ℝ) : Player :=
  let p : Player := ⟨name, rating, 0, 0, 0, 0⟩
  if p.rating < 0 then { p with rating := 0.0 } else p

/-- `Player::updateRating(double newRating)`: `rating = newRating;` —
an unconditional replacement with no clamping. -/
def updateRating (p : Player) (newRating : ℝ) : Player :=
  { p with rating := newRating }

/-- `Player::recordWin()`: `wins++; gamesPlayed++;`. -/
def recordWin (p : Player) : Player :=
  { p with wins := p.wins + 1, gamesPlayed := p.gamesPlayed + 1 }

/-- `Player::recordLoss()`: `losses++; gamesPlayed++;`. -/
def recordLoss (p : Player) : Player :=
  { p with losses := p.losses + 1, gamesPlayed := p.gamesPlayed + 1 }

/-- `Player::recordDraw()`: `draws++; gamesPlayed++;`. -/
def recordDraw (p : Player) : Player :=
  { p with draws := p.draws + 1, gamesPlayed := p.gamesPlayed + 1 }

end Player

namespace Match

/-- `Match::calculateExpectedScore(double ratingA, double ratingB)`:
`exponent = (ratingB - ratingA) / 400.0`, `powerOfTen = pow(10.0, exponent)`,
result `1.0 / (1.0 + powerOfTen)`. -/
noncomputable def calculateExpectedScore (ratingA ratingB : ℝ) : ℝ :=
  let exponent := (ratingB - ratingA) / 400.0
  let powerOfTen := (10.0 : ℝ) ^ exponent
  1.0 / (1.0 + powerOfTen)

/-- `Match::processMatch()` for a `Match` whose two `Player&` references
are distinct objects, given here as a pair. Mirrors `Match.cpp`: read both
ratings, compute both expected scores from them, branch on `result`
(`1`, `-1`, anything else is the draw branch) to pick the actual scores
and record one statistic on each player, then compute both new ratings
from the pre-match ratings and apply them with `updateRating`. -/
noncomputable def processMatch (player1 player2 : Player) (result : ℤ)
    (kFactor : ℝ) : Player × Player :=
  let rating1 := player1.rating
  let rating2 := player2.rating
  let expected1 := calculateExpectedScore rating1 rating2
  let expected2 := calculateExpectedScore rating2 rating1
  let step : ℝ × ℝ × Player × Player :=
    if result = 1 then (1.0, 0.0, player1.recordWin, player2.recordLoss)
    else if result = -1 then (0.0, 1.0, player1.recordLoss, player2.recordWin)
    else (0.5, 0.5, player1.recordDraw, player2.recordDraw)
  let actual1 := step.1
  let actual2 := step.2.1
  let q1 := step.2.2.1
  let q2 := step.2.2.2
  let newRating1 := rating1 + kFactor * (actual1 - expected1)
  let newRating2 := rating2 + kFactor * (actual2 - expected2)
  (q1.updateRating newRating1, q2.updateRating newRating2)

end Match

/-- Apply `f` to the element of `l` at position `i` (identity when `i` is
out of range). Models a mutation through a pointer into the registry's
`std::vector`: the pointer is a stable position, so two pointers compare
equal exactly when the positions do. -/
def modifyIdx (f : Player → Player) : List Player → ℕ → List Player
  | [], _ => []
  | p :: rest, 0 => f p :: rest
  | p :: rest, n + 1 => p :: modifyIdx f rest n

/-- `RankingSystem` as in `RankingSystem.h`: it owns the vector
`std::vector<std::unique_ptr<Player>> players`. -/
structure RankingSystem where
  players : List Player

namespace RankingSystem

/-- `RankingSystem::findPlayer(name)`: linear scan for the first player
whose name compares equal; models the returned `Player*` by the pointed-to
player (`none` is `nullptr`). -/
def findPlayer (sys : RankingSystem) (name : String) : Option Player :=
  sys.players.find? (fun p => p.name == name)

/-- The position in `players` of the player `findPlayer` returns a pointer
to: the first index whose name compares equal. -/
def findPlayerIdx (sys : RankingSystem) (name : String) : Option ℕ :=
  sys.players.findIdx? (fun p => p.name == name)

/-- `RankingSystem::addPlayer(name, initialRating = 1200.0)`: if
`findPlayer(name)` is non-null, report and return; otherwise push a new
`Player(name, initialRating)` onto the vector. -/
noncomputable def addPlayer (sys : RankingSystem) (name : String)
    (initialRating : ℝ := 1200.0) : RankingSystem :=
  if (sys.findPlayer name).isSome then sys
  else ⟨sys.players ++ [Player.make name initialRating]⟩

/-- `RankingSystem::getPlayerCount()`: `players.size()`. -/
def getPlayerCount (sys : RankingSystem) : ℕ :=
  sys.players.length

/-- `RankingSystem::getAllPlayerNames()`: the names in vector order. -/
def getAllPlayerNames (sys : RankingSystem) : List String :=
  sys.players.map Player.name

/-- `Match::processMatch()` executed on the registry's vector when the
`Match` was constructed over pointers to positions `i1` and `i2` (as
`RankingSystem::recordMatch` does). The mutations are applied to the
vector in the source's order — stat recording on player1 then player2,
then `updateRating` on player1 then player2 — so when `i1 = i2` both
references alias one player and the second `updateRating` overwrites the
first, exactly as the C++ references do. The ratings and expected scores
are read before any mutation, as in `Match.cpp` step 1. -/
noncomputable def processMatchAt (players : List Player) (i1 i2 : ℕ)
    (result : ℤ) (kFactor : ℝ) : List Player :=
  let p1 := (players.get? i1).getD ⟨"", 0, 0, 0, 0, 0⟩
  let p2 := (players.get? i2).getD ⟨"", 0, 0, 0, 0, 0⟩
  let rating1 := p1.rating
  let rating2 := p2.rating
  let expected1 := Match.calculateExpectedScore rating1 rating2
  let expected2 := Match.calculateExpectedScore rating2 rating1
  let step : ℝ × ℝ × List Player :=
    if result = 1 then
      (1.0, 0.0, modifyIdx Player.recordLoss (modifyIdx Player.recordWin players i1) i2)
    else if result = -1 then
      (0.0, 1.0, modifyIdx Player.recordWin (modifyIdx Player.recordLoss players i1) i2)
    else
      (0.5, 0.5, modifyIdx Player.recordDraw (modifyIdx Player.recordDraw players i1) i2)
  let actual1 := step.1
  let actual2 := step.2.1
  let recorded := step.2.2
  let newRating1 := rating1 + kFactor * (actual1 - expected1)
  let newRating2 := rating2 + kFactor * (actual2 - expected2)
  modifyIdx (fun p => p.updateRating newRating2)
    (modifyIdx (fun p => p.updateRating newRating1) recorded i1) i2

/-- `RankingSystem::recordMatch(name1, name2, result)`: look up both
names; if either pointer is null, report and return with no mutation;
otherwise build `Match(*p1, *p2, result)` — the default K-factor `32.0`
from `Match.h` — and run `processMatch()` on the two pointed-to players. -/
noncomputable def recordMatch (sys : RankingSystem) (name1 name2 : String)
    (result : ℤ) : RankingSystem :=
  match sys.findPlayerIdx name1 with
  | none => sys
  | some i1 =>
    match sys.findPlayerIdx name2 with
    | none => sys
    | some i2 => ⟨processMatchAt sys.players i1 i2 result 32.0⟩

end RankingSystem

/-- One line of the persisted CSV file
`Name,Rating,GamesPlayed,Wins,Losses,Draws`. The numeric text on the line
is modelled by the values it denotes; the C++ stream prints `rating` with
its default precision (6 significant digits), an approximation this model
idealises as exact. -/
structure SavedRecord where
  name : String
  rating : ℝ
  gamesPlayed : ℕ
  wins : ℕ
  losses : ℕ
  draws : ℕ

namespace RankingSystem

/-- `RankingSystem::saveToFile`: one CSV line per player, in vector order,
writing `getName(), getRating(), getGamesPlayed(), getWins(), getLosses(),
getDraws()`. -/
def saveToFile (sys : RankingSystem) : List SavedRecord :=
  sys.players.map (fun p => ⟨p.name, p.rating, p.gamesPlayed, p.wins, p.losses, p.draws⟩)

/-- Loading one parsed CSV line, as in `RankingSystem::loadFromFile`
steps 5–7: construct `Player(name, rating)` (which clamps a negative
rating), then call `recordWin`/`recordLoss`/`recordDraw` the stated number
of times. The parsed `games` field is read but never used — `gamesPlayed`
is rebuilt from the replays. -/
noncomputable def loadRecord (rec : SavedRecord) : Player :=
  let player := Player.make rec.name rec.rating
  let player := Player.recordWin^[rec.wins] player
  let player := Player.recordLoss^[rec.losses] player
  Player.recordDraw^[rec.draws] player

/-- `RankingSystem::loadFromFile(filename)`: the file's parsed content is
passed explicitly, `none` for a file that cannot be opened. On `none` the
method prints "Starting fresh." and returns *before* `players.clear()`,
leaving the vector as it was; on `some` it clears the vector and rebuilds
one player per line via `loadRecord`. -/
noncomputable def loadFromFile (sys : RankingSystem)
    (file : Option (List SavedRecord)) : RankingSystem :=
  match file with
  | none => sys
  | some lines => ⟨lines.map loadRecord⟩

end RankingSystem

/-- The mutations a `Player` is subject to after construction: the three
stat recorders and `updateRating` (the only public mutators in
`Player.h`). -/
inductive PlayerOp where
  | win : PlayerOp
  | loss : PlayerOp
  | draw : PlayerOp
  | setRating : ℝ → PlayerOp

/-- Apply one mutation to a player. -/
def Player.applyOp (p : Player) : PlayerOp → Player
  | PlayerOp.win => p.recordWin
  | PlayerOp.loss => p.recordLoss
  | PlayerOp.draw => p.recordDraw
  | PlayerOp.setRating v => p.updateRating v

/-- Apply a sequence of mutations, oldest first. -/
def Player.applyOps (p : Player) (ops : List PlayerOp) : Player :=
  ops.foldl Player.applyOp p

/-- The documented `Player` statistics invariant
`games_played = wins + losses + draws`. -/
def Player.statInvariant (p : Player) : Prop :=
  p.gamesPlayed = p.wins + p.losses + p.draws

/-- A registry reached only through the public operations — two players
added at rating `0`, then one match — in which the loser's rating has been
driven to `-16` by `updateRating` (which does not clamp). -/
noncomputable def drivenNegative : RankingSystem :=
  (((⟨[]⟩ : RankingSystem).addPlayer "Alice" 0).addPlayer "Bob" 0).recordMatch
    "Alice" "Bob" 1

/-! ## Helper lemmas about the expected-score formula -/

/-- Closed form of `calculateExpectedScore` with the literals normalised. -/
lemma calculateExpectedScore_eq (a b : ℝ) :
    Match.calculateExpectedScore a b = 1 / (1 + (10 : ℝ) ^ ((b - a) / 400)) := by
  unfold Match.calculateExpectedScore
  norm_num

lemma rpow_ten_pos (x : ℝ) : 0 < (10 : ℝ) ^ x :=
  Real.rpow_pos_of_pos (by norm_num) x

/-- The two expected scores of a matchup sum to `1`. -/
lemma calculateExpectedScore_add_symm (a b : ℝ) :
    Match.calculateExpectedScore a b + Match.calculateExpectedScore b a = 1 := by
  rw [calculateExpectedScore_eq, calculateExpectedScore_eq]
  have hneg : (10 : ℝ) ^ ((a - b) / 400) = ((10 : ℝ) ^ ((b - a) / 400))⁻¹ := by
    rw [← Real.rpow_neg (by norm_num : (0 : ℝ) ≤ 10)]
    ring_nf
  rw [hneg]
  have h1 : (0 : ℝ) < (10 : ℝ) ^ ((b - a) / 400) := rpow_ten_pos _
  have h2 : (1 : ℝ) + (10 : ℝ) ^ ((b - a) / 400) ≠ 0 := by positivity
  have h3 : (1 : ℝ) + ((10 : ℝ) ^ ((b - a) / 400))⁻¹ ≠ 0 := by positivity
  field_simp
  ring

/-- A player expects exactly half a point against their own rating. -/
lemma calculateExpectedScore_self (x : ℝ) :
    Match.calculateExpectedScore x x = 1 / 2 := by
  rw [calculateExpectedScore_eq]
  norm_num

/-- The expected score is strictly larger when the rating difference
(opponent minus self) is strictly smaller. -/
lemma calculateExpectedScore_lt (a b c d : ℝ) (h : d - c < b - a) :
    Match.calculateExpectedScore a b < Match.calculateExpectedScore c d := by
  rw [calculateExpectedScore_eq, calculateExpectedScore_eq]
  have hlt : (10 : ℝ) ^ ((d - c) / 400) < (10 : ℝ) ^ ((b - a) / 400) :=
    (Real.rpow_lt_rpow_left_iff (by norm_num : (1 : ℝ) < 10)).mpr (by linarith)
  have h1 : (0 : ℝ) < 1 + (10 : ℝ) ^ ((d - c) / 400) := by positivity
  exact one_div_lt_one_div_of_lt h1 (by linarith)

/-! ## C3: symmetry of the expected score -/

/-- **C3.** For all ratings `a` and `b`,
`expected_score(a, b) + expected_score(b, a) = 1`, and in particular
`expected_score(x, x) = 0.5` for every rating `x`. -/
theorem elo_expectedScore_symmetric :
    (∀ a b : ℝ,
      Match.calculateExpectedScore a b + Match.calculateExpectedScore b a = 1)
    ∧ ∀ x : ℝ, Match.calculateExpectedScore x x = 0.5 := by
  constructor
  · exact calculateExpectedScore_add_symm
  · intro x
    rw [calculateExpectedScore_self]
    norm_num

/-! ## Helper lemmas: the three branches of `processMatch` -/

lemma processMatch_win (p1 p2 : Player) (k : ℝ) :
    Match.processMatch p1 p2 1 k =
      (p1.recordWin.updateRating
        (p1.rating + k * (1 - Match.calculateExpectedScore p1.rating p2.rating)),
       p2.recordLoss.updateRating
        (p2.rating + k * (0 - Match.calculateExpectedScore p2.rating p1.rating))) := by
  unfold Match.processMatch
  norm_num

lemma processMatch_loss (p1 p2 : Player) (k : ℝ) :
    Match.processMatch p1 p2 (-1) k =
      (p1.recordLoss.updateRating
        (p1.rating + k * (0 - Match.calculateExpectedScore p1.rating p2.rating)),
       p2.recordWin.updateRating
        (p2.rating + k * (1 - Match.calculateExpectedScore p2.rating p1.rating))) := by
  unfold Match.processMatch
  norm_num

lemma processMatch_other (p1 p2 : Player) (r : ℤ) (k : ℝ)
    (h1 : r ≠ 1) (h2 : r ≠ -1) :
    Match.processMatch p1 p2 r k =
      (p1.recordDraw.updateRating
        (p1.rating + k * (1 / 2 - Match.calculateExpectedScore p1.rating p2.rating)),
       p2.recordDraw.updateRating
        (p2.rating + k * (1 / 2 - Match.calculateExpectedScore p2.rating p1.rating))) := by
  unfold Match.processMatch
  rw [if_neg h1, if_neg h2]
  norm_num

/-! ## C1: the Elo update rule of `processMatch` -/

/-- **C1.** For result codes `1`, `0`, `-1`, `processMatch` sets each
player's rating to `old + k * (actual - expected)` with actual scores
`(1,0)`, `(0.5,0.5)`, `(0,1)` respectively, both expected scores computed
from the pre-match ratings, and records exactly one matching statistic on
each player (win/loss mirrored, draw on both), incrementing each player's
`gamesPlayed` by one and leaving the remaining counters and names
unchanged. -/
theorem elo_processMatch_formula (p1 p2 : Player) (r : ℤ) (k : ℝ)
    (h : r = 1 ∨ r = 0 ∨ r = -1) :
    Match.processMatch p1 p2 r k =
      ({ name := p1.name,
         rating := p1.rating + k *
           ((if r = 1 then (1 : ℝ) else if r = -1 then 0 else 1 / 2)
             - Match.calculateExpectedScore p1.rating p2.rating),
         gamesPlayed := p1.gamesPlayed + 1,
         wins := if r = 1 then p1.wins + 1 else p1.wins,
         losses := if r = -1 then p1.losses + 1 else p1.losses,
         draws := if r = 0 then p1.draws + 1 else p1.draws },
       { name := p2.name,
         rating := p2.rating + k *
           ((if r = 1 then (0 : ℝ) else if r = -1 then 1 else 1 / 2)
             - Match.calculateExpectedScore p2.rating p1.rating),
         gamesPlayed := p2.gamesPlayed + 1,
         wins := if r = -1 then p2.wins + 1 else p2.wins,
         losses := if r = 1 then p2.losses + 1 else p2.losses,
         draws := if r = 0 then p2.draws + 1 else p2.draws }) := by
  rcases h with h | h | h <;> subst h
  · rw [processMatch_win]
    simp [Player.recordWin, Player.recordLoss, Player.updateRating]
  · rw [processMatch_other p1 p2 0 k (by decide) (by decide)]
    simp [Player.recordDraw, Player.updateRating]
  · rw [processMatch_loss]
    simp [Player.recordLoss, Player.recordWin, Player.updateRating]

/-- Witness for C1 at a concrete input: two fresh 1200-rated players,
player 1 wins, `K = 32`. -/
theorem elo_processMatch_formula_witness :
    ((1 : ℤ) = 1 ∨ (1 : ℤ) = 0 ∨ (1 : ℤ) = -1)
    ∧ Match.processMatch ⟨"Alice", 1200, 0, 0, 0, 0⟩ ⟨"Bob", 1200, 0, 0, 0, 0⟩ 1 32 =
      ({ name := "Alice",
         rating := 1200 + 32 *
           ((if (1 : ℤ) = 1 then (1 : ℝ) else if (1 : ℤ) = -1 then 0 else 1 / 2)
             - Match.calculateExpectedScore 1200 1200),
         gamesPlayed := 0 + 1,
         wins := if (1 : ℤ) = 1 then 0 + 1 else 0,
         losses := if (1 : ℤ) = -1 then 0 + 1 else 0,
         draws := if (1 : ℤ) = 0 then 0 + 1 else 0 },
       { name := "Bob",
         rating := 1200 + 32 *
           ((if (1 : ℤ) = 1 then (0 : ℝ) else if (1 : ℤ) = -1 then 1 else 1 / 2)
             - Match.calculateExpectedScore 1200 1200),
         gamesPlayed := 0 + 1,
         wins := if (1 : ℤ) = -1 then 0 + 1 else 0,
         losses := if (1 : ℤ) = 1 then 0 + 1 else 0,
         draws := if (1 : ℤ) = 0 then 0 + 1 else 0 }) :=
  ⟨Or.inl rfl,
   elo_processMatch_formula ⟨"Alice", 1200, 0, 0, 0, 0⟩ ⟨"Bob", 1200, 0, 0, 0, 0⟩
     1 32 (Or.inl rfl)⟩

/-! ## C2: the rating exchange is zero-sum -/

/-- **C2.** For every match processed by `processMatch` — any result code,
any K-factor, any pre-match ratings — the sum of the two players' ratings
after the match equals the sum before it. -/
theorem elo_zero_sum (p1 p2 : Player) (r : ℤ) (k : ℝ) :
    (Match.processMatch p1 p2 r k).1.rating + (Match.processMatch p1 p2 r k).2.rating
      = p1.rating + p2.rating := by
  have h := calculateExpectedScore_add_symm p1.rating p2.rating
  by_cases h1 : r = 1
  · subst h1
    rw [processMatch_win]
    simp only [Player.updateRating]
    linear_combination (-k) * h
  · by_cases h2 : r = -1
    · subst h2
      rw [processMatch_loss]
      simp only [Player.updateRating]
      linear_combination (-k) * h
    · rw [processMatch_other p1 p2 r k h1 h2]
      simp only [Player.updateRating]
      linear_combination (-k) * h

/-! ## C9: an upset win pays more than an expected win -/

/-- **C9.** For every K-factor `k > 0` and rating gap `g > 0`: when the
player rated `g` below the opponent wins (upset), the winner gains
strictly more rating than when the player rated `g` above the opponent
wins (expected win), with the same `k` and gap. -/
theorem elo_upset_gain_larger (p q : Player) (g k : ℝ)
    (hk : 0 < k) (hg : 0 < g) (hgap : q.rating = p.rating + g) :
    (Match.processMatch q p 1 k).1.rating - q.rating
      < (Match.processMatch p q 1 k).1.rating - p.rating := by
  rw [processMatch_win, processMatch_win]
  simp only [Player.updateRating, Player.recordWin]
  have hlt := calculateExpectedScore_lt p.rating q.rating q.rating p.rating
    (by rw [hgap]; linarith)
  nlinarith [mul_lt_mul_of_pos_left hlt hk]

/-- Witness for C9: gap `g = 400`, `K = 32`, players rated 1200 and 1600. -/
theorem elo_upset_gain_larger_witness :
    (0 : ℝ) < 32 ∧ (0 : ℝ) < 400
    ∧ (Player.mk "H" 1600 0 0 0 0).rating = (Player.mk "L" 1200 0 0 0 0).rating + 400
    ∧ (Match.processMatch ⟨"H", 1600, 0, 0, 0, 0⟩ ⟨"L", 1200, 0, 0, 0, 0⟩ 1 32).1.rating
        - (Player.mk "H" 1600 0 0 0 0).rating
      < (Match.processMatch ⟨"L", 1200, 0, 0, 0, 0⟩ ⟨"H", 1600, 0, 0, 0, 0⟩ 1 32).1.rating
        - (Player.mk "L" 1200 0 0 0 0).rating :=
  ⟨by norm_num, by norm_num, by norm_num,
   elo_upset_gain_larger ⟨"L", 1200, 0, 0, 0, 0⟩ ⟨"H", 1600, 0, 0, 0, 0⟩ 400 32
     (by norm_num) (by norm_num) (by norm_num)⟩

/-! ## C4: the statistics invariant -/

lemma statInvariant_applyOp (p : Player) (op : PlayerOp)
    (hp : p.statInvariant) : (p.applyOp op).statInvariant := by
  cases op <;>
    simp only [Player.applyOp, Player.statInvariant, Player.recordWin,
      Player.recordLoss, Player.recordDraw, Player.updateRating] at hp ⊢ <;>
    omega

lemma statInvariant_applyOps (ops : List PlayerOp) (p : Player)
    (hp : p.statInvariant) : (p.applyOps ops).statInvariant := by
  induction ops generalizing p with
  | nil => exact hp
  | cons op rest ih => exact ih (p.applyOp op) (statInvariant_applyOp p op hp)

lemma statInvariant_make (nm : String) (r : ℝ) :
    (Player.make nm r).statInvariant := by
  unfold Player.make Player.statInvariant
  dsimp only
  split <;> rfl

/-- **C4.** Starting from construction (all counters 0), after any
sequence of `recordWin`/`recordLoss`/`recordDraw`/`updateRating` calls,
`games_played = wins + losses + draws`; moreover each record operation
increments exactly its outcome counter and `games_played` together, and
`updateRating` changes no counter. -/
theorem player_stat_invariant (nm : String) (r : ℝ) (ops : List PlayerOp) :
    ((Player.make nm r).applyOps ops).gamesPlayed
      = ((Player.make nm r).applyOps ops).wins
        + ((Player.make nm r).applyOps ops).losses
        + ((Player.make nm r).applyOps ops).draws
    ∧ ∀ p : Player,
        (p.recordWin.wins = p.wins + 1 ∧ p.recordWin.gamesPlayed = p.gamesPlayed + 1
          ∧ p.recordWin.losses = p.losses ∧ p.recordWin.draws = p.draws)
        ∧ (p.recordLoss.losses = p.losses + 1 ∧ p.recordLoss.gamesPlayed = p.gamesPlayed + 1
          ∧ p.recordLoss.wins = p.wins ∧ p.recordLoss.draws = p.draws)
        ∧ (p.recordDraw.draws = p.draws + 1 ∧ p.recordDraw.gamesPlayed = p.gamesPlayed + 1
          ∧ p.recordDraw.wins = p.wins ∧ p.recordDraw.losses = p.losses)
        ∧ ∀ v : ℝ, (p.updateRating v).gamesPlayed = p.gamesPlayed
            ∧ (p.updateRating v).wins = p.wins
            ∧ (p.updateRating v).losses = p.losses
            ∧ (p.updateRating v).draws = p.draws := by
  refine ⟨statInvariant_applyOps ops (Player.make nm r) (statInvariant_make nm r), ?_⟩
  intro p
  simp [Player.recordWin, Player.recordLoss, Player.recordDraw, Player.updateRating]

/-! ## C6: the rating floor is enforced only at construction -/

/-- **C6.** Constructing a `Player` with a negative rating stores `0.0`
with all counters `0`, while `updateRating` replaces the rating with its
argument unconditionally — in particular a negative value survives. -/
theorem player_clamp_only_at_construction (nm : String) (r : ℝ) (hr : r < 0) :
    (Player.make nm r).rating = 0
    ∧ (Player.make nm r).gamesPlayed = 0 ∧ (Player.make nm r).wins = 0
    ∧ (Player.make nm r).losses = 0 ∧ (Player.make nm r).draws = 0
    ∧ ∀ (p : Player) (v : ℝ), (p.updateRating v).rating = v := by
  refine ⟨?_, ?_, ?_, ?_, ?_, fun p v => rfl⟩ <;>
    simp [Player.make, hr, show (0.0 : ℝ) = 0 by norm_num]

/-- Witness for C6 at the spec's example `Player("X", -100.0)`. -/
theorem player_clamp_only_at_construction_witness :
    (-100 : ℝ) < 0
    ∧ ((Player.make "X" (-100)).rating = 0
    ∧ (Player.make "X" (-100)).gamesPlayed = 0 ∧ (Player.make "X" (-100)).wins = 0
    ∧ (Player.make "X" (-100)).losses = 0 ∧ (Player.make "X" (-100)).draws = 0
    ∧ ∀ (p : Player) (v : ℝ), (p.updateRating v).rating = v) :=
  ⟨by norm_num, player_clamp_only_at_construction "X" (-100) (by norm_num)⟩

/-! ## C5: a match naming a missing player mutates nothing -/

lemma findPlayer_none_iff_findPlayerIdx_none (sys : RankingSystem) (n : String) :
    sys.findPlayer n = none ↔ sys.findPlayerIdx n = none := by
  unfold RankingSystem.findPlayer RankingSystem.findPlayerIdx
  rw [List.find?_eq_none, List.findIdx?_eq_none_iff]
  simp

/-- **C5.** If either name has no player in the registry, `recordMatch`
returns the registry completely unchanged: no rating change, no counter
change, no change to the player collection. -/
theorem recordMatch_missing_player_noop (sys : RankingSystem)
    (n1 n2 : String) (r : ℤ)
    (h : sys.findPlayer n1 = none ∨ sys.findPlayer n2 = none) :
    sys.recordMatch n1 n2 r = sys := by
  unfold RankingSystem.recordMatch
  rcases h with h | h
  · rw [(findPlayer_none_iff_findPlayerIdx_none sys n1).mp h]
  · rcases h1 : sys.findPlayerIdx n1 with _ | i1
    · rfl
    · rw [(findPlayer_none_iff_findPlayerIdx_none sys n2).mp h]

/-- Witness for C5: recording a match in an empty registry is a no-op. -/
theorem recordMatch_missing_player_noop_witness :
    ((⟨[]⟩ : RankingSystem).findPlayer "Alice" = none
      ∨ (⟨[]⟩ : RankingSystem).findPlayer "Bob" = none)
    ∧ (⟨[]⟩ : RankingSystem).recordMatch "Alice" "Bob" 1 = ⟨[]⟩ :=
  ⟨Or.inl rfl, recordMatch_missing_player_noop ⟨[]⟩ "Alice" "Bob" 1 (Or.inl rfl)⟩

/-! ## C8: loading from a missing file -/

/-- Counterexample to C8 as stated: on a registry already holding one
player, `loadFromFile` with an unopenable file (`none`) returns before
`players.clear()`, so the registry still has 1 player, not 0. -/
theorem loadFromFile_missing_file_not_empty :
    ¬ ((RankingSystem.mk [⟨"Alice", 1200, 0, 0, 0, 0⟩]).loadFromFile none).getPlayerCount = 0 := by
  simp [RankingSystem.loadFromFile, RankingSystem.getPlayerCount]

/-- **C8 (amended).** `loadFromFile` on a file that cannot be opened is
not an error and leaves the registry exactly as it was — in particular a
fresh (empty) registry stays empty, which is the only situation the
original claim's "yields an empty Registry" describes. -/
theorem loadFromFile_missing_file_noop (sys : RankingSystem) :
    sys.loadFromFile none = sys ∧ ((⟨[]⟩ : RankingSystem).loadFromFile none).getPlayerCount = 0 :=
  ⟨rfl, rfl⟩

/-! ## C7: the save/load round trip -/

lemma Player.make_of_nonneg (nm : String) (r : ℝ) (h : 0 ≤ r) :
    Player.make nm r = ⟨nm, r, 0, 0, 0, 0⟩ := by
  unfold Player.make
  dsimp only
  rw [if_neg (not_lt.mpr h)]

lemma Player.make_of_neg (nm : String) (r : ℝ) (h : r < 0) :
    Player.make nm r = ⟨nm, 0, 0, 0, 0, 0⟩ := by
  unfold Player.make
  dsimp only
  rw [if_pos h]
  norm_num

lemma recordWin_iterate (n : ℕ) (p : Player) :
    Player.recordWin^[n] p =
      { p with wins := p.wins + n, gamesPlayed := p.gamesPlayed + n } := by
  induction n with
  | zero => simp
  | succ n ih =>
    rw [Function.iterate_succ_apply', ih]
    simp [Player.recordWin, Nat.add_assoc]

lemma recordLoss_iterate (n : ℕ) (p : Player) :
    Player.recordLoss^[n] p =
      { p with losses := p.losses + n, gamesPlayed := p.gamesPlayed + n } := by
  induction n with
  | zero => simp
  | succ n ih =>
    rw [Function.iterate_succ_apply', ih]
    simp [Player.recordLoss, Nat.add_assoc]

lemma recordDraw_iterate (n : ℕ) (p : Player) :
    Player.recordDraw^[n] p =
      { p with draws := p.draws + n, gamesPlayed := p.gamesPlayed + n } := by
  induction n with
  | zero => simp
  | succ n ih =>
    rw [Function.iterate_succ_apply', ih]
    simp [Player.recordDraw, Nat.add_assoc]

/-- Reloading the saved line of a player whose rating is non-negative and
whose counters satisfy the invariant reproduces that player exactly. -/
lemma loadRecord_saved (p : Player) (h0 : 0 ≤ p.rating) (hinv : p.statInvariant) :
    RankingSystem.loadRecord ⟨p.name, p.rating, p.gamesPlayed, p.wins, p.losses, p.draws⟩ = p := by
  obtain ⟨nm, r, g, w, l, d⟩ := p
  unfold RankingSystem.loadRecord
  rw [Player.make_of_nonneg nm r h0]
  unfold Player.statInvariant at hinv
  simp only [recordWin_iterate, recordLoss_iterate, recordDraw_iterate]
  simp only at hinv ⊢
  congr 1 <;> omega

/-- **C7 (amended).** For every registry whose players all have a
non-negative rating and satisfy the statistics invariant, saving and
loading the file into a fresh registry reproduces every player exactly:
same name, same rating, and the same four counters (the saved
`games_played` field itself is ignored on load and rebuilt by replaying
`wins + losses + draws` record calls, which agrees with it exactly when
the invariant holds). The model idealises the decimal rendering of
`rating` as exact; the C++ stream prints only 6 significant digits. -/
theorem saveLoad_roundtrip (sys : RankingSystem)
    (h : ∀ p ∈ sys.players, 0 ≤ p.rating ∧ p.statInvariant) :
    (⟨[]⟩ : RankingSystem).loadFromFile (some sys.saveToFile) = sys := by
  obtain ⟨ps⟩ := sys
  unfold RankingSystem.loadFromFile RankingSystem.saveToFile
  simp only [List.map_map]
  congr 1
  induction ps with
  | nil => rfl
  | cons p rest ih =>
    have hp := h p (by simp)
    simp only [List.map_cons, Function.comp_apply]
    rw [loadRecord_saved p hp.1 hp.2]
    rw [ih (fun q hq => h q (by simp [hq]))]

/-- Witness for the amended C7: one player with rating `1200`, one win
and one loss on record. -/
theorem saveLoad_roundtrip_witness :
    (∀ p ∈ (RankingSystem.mk [⟨"Alice", 1200, 2, 1, 1, 0⟩]).players,
        0 ≤ p.rating ∧ p.statInvariant)
    ∧ (⟨[]⟩ : RankingSystem).loadFromFile
        (some (RankingSystem.mk [⟨"Alice", 1200, 2, 1, 1, 0⟩]).saveToFile)
      = RankingSystem.mk [⟨"Alice", 1200, 2, 1, 1, 0⟩] := by
  have h : ∀ p ∈ (RankingSystem.mk [⟨"Alice", 1200, 2, 1, 1, 0⟩]).players,
      0 ≤ p.rating ∧ p.statInvariant := by
    intro p hp
    simp only [List.mem_singleton] at hp
    subst hp
    exact ⟨by norm_num, by unfold Player.statInvariant; norm_num⟩
  exact ⟨h, saveLoad_roundtrip _ h⟩

lemma drivenNegative_eq :
    drivenNegative = ⟨[⟨"Alice", 16, 1, 1, 0, 0⟩, ⟨"Bob", -16, 1, 0, 1, 0⟩]⟩ := by
  have hA : Player.make "Alice" 0 = ⟨"Alice", 0, 0, 0, 0, 0⟩ :=
    Player.make_of_nonneg _ _ le_rfl
  have hB : Player.make "Bob" 0 = ⟨"Bob", 0, 0, 0, 0, 0⟩ :=
    Player.make_of_nonneg _ _ le_rfl
  have h1 : (⟨[]⟩ : RankingSystem).addPlayer "Alice" 0 = ⟨[⟨"Alice", 0, 0, 0, 0, 0⟩]⟩ := by
    unfold RankingSystem.addPlayer RankingSystem.findPlayer
    simp [hA]
  have h2 : (⟨[⟨"Alice", 0, 0, 0, 0, 0⟩]⟩ : RankingSystem).addPlayer "Bob" 0 =
      ⟨[⟨"Alice", 0, 0, 0, 0, 0⟩, ⟨"Bob", 0, 0, 0, 0, 0⟩]⟩ := by
    unfold RankingSystem.addPlayer RankingSystem.findPlayer
    simp [hB]
  have hiA : (⟨[⟨"Alice", 0, 0, 0, 0, 0⟩, ⟨"Bob", 0, 0, 0, 0, 0⟩]⟩ :
      RankingSystem).findPlayerIdx "Alice" = some 0 := by
    unfold RankingSystem.findPlayerIdx
    simp [List.findIdx?_cons]
  have hiB : (⟨[⟨"Alice", 0, 0, 0, 0, 0⟩, ⟨"Bob", 0, 0, 0, 0, 0⟩]⟩ :
      RankingSystem).findPlayerIdx "Bob" = some 1 := by
    unfold RankingSystem.findPlayerIdx
    simp [List.findIdx?_cons]
  unfold drivenNegative
  rw [h1, h2]
  unfold RankingSystem.recordMatch
  rw [hiA, hiB]
  unfold RankingSystem.processMatchAt
  norm_num [modifyIdx, Player.recordWin, Player.recordLoss, Player.updateRating,
    calculateExpectedScore_self]

/-- Counterexample to C7 as stated: in the reachable registry
`drivenNegative` the loser's rating is `-16`; after a save/load round
trip the constructor clamp turns it into `0`, so the ratings do not
round-trip. -/
theorem saveLoad_roundtrip_fails :
    ¬ ((⟨[]⟩ : RankingSystem).loadFromFile (some drivenNegative.saveToFile)).players.map
        Player.rating = drivenNegative.players.map Player.rating := by
  rw [drivenNegative_eq]
  unfold RankingSystem.loadFromFile RankingSystem.saveToFile RankingSystem.loadRecord
  simp only [List.map_cons, List.map_nil, List.map_map, Function.comp_apply]
  rw [Player.make_of_nonneg "Alice" 16 (by norm_num),
      Player.make_of_neg "Bob" (-16) (by norm_num)]
  simp [recordWin_iterate, recordLoss_iterate, recordDraw_iterate,
    Player.recordWin, Player.recordLoss, Player.recordDraw]

/-! ## C10: a match of a player against themself -/

lemma modifyIdx_modifyIdx (f g : Player → Player) (l : List Player) (i : ℕ) :
    modifyIdx f (modifyIdx g l i) i = modifyIdx (fun p => f (g p)) l i := by
  induction l generalizing i with
  | nil => rfl
  | cons p rest ih =>
    cases i with
    | zero => rfl
    | succ j => simp [modifyIdx, ih]

lemma modifyIdx_congr (f f' : Player → Player) (l : List Player) (i : ℕ)
    (p : Player) (hp : l.get? i = some p) (hf : f p = f' p) :
    modifyIdx f l i = modifyIdx f' l i := by
  induction l generalizing i with
  | nil => rfl
  | cons q rest ih =>
    cases i with
    | zero =>
      simp only [List.get?] at hp
      cases hp
      simp [modifyIdx, hf]
    | succ j =>
      simp only [List.get?] at hp
      simp [modifyIdx, ih j hp]

/-- **C10.** `recordMatch(n, n, result)` on a registry containing a player
named `n` is not rejected: both `Match` references bind to that single
player (position `i`), so for result `1` or `-1` the player records both a
win and a loss (`games_played` increases by 2), for result `0` two draws;
both `updateRating` calls are computed from the same pre-match rating and
expected score `0.5`, the second overwrites the first, and the final
rating is `rating + 32 * (actual2 - 0.5)` — for result `1`, a drop of
`32 / 2 = 16` for the "winner". -/
theorem recordMatch_self_aliases (sys : RankingSystem) (n : String)
    (res : ℤ) (i : ℕ)
    (hres : res = 1 ∨ res = 0 ∨ res = -1)
    (hi : sys.findPlayerIdx n = some i) :
    sys.recordMatch n n res =
      ⟨modifyIdx (fun p =>
        { p with
          rating := p.rating
            + 32 * ((if res = 1 then (0 : ℝ) else if res = -1 then 1 else 1 / 2) - 1 / 2),
          gamesPlayed := p.gamesPlayed + 2,
          wins := if res = 0 then p.wins else p.wins + 1,
          losses := if res = 0 then p.losses else p.losses + 1,
          draws := if res = 0 then p.draws + 2 else p.draws })
        sys.players i⟩ := by
  obtain ⟨hlen, -⟩ := List.findIdx?_eq_some_iff_findIdx_eq.mp hi
  have hp : sys.players.get? i = some sys.players[i] := by
    rw [List.get?_eq_getElem?]
    exact List.getElem?_eq_getElem hlen
  unfold RankingSystem.recordMatch
  rw [hi]
  unfold RankingSystem.processMatchAt
  dsimp only
  rw [hp]
  simp only [Option.getD_some, calculateExpectedScore_self]
  rcases hres with h | h | h <;> subst h <;>
    norm_num <;>
    simp only [modifyIdx_modifyIdx] <;>
    (refine modifyIdx_congr _ _ _ i _ hp ?_
     simp [Player.recordWin, Player.recordLoss, Player.recordDraw,
       Player.updateRating, Nat.add_assoc])

/-- Witness for C10: a one-player registry, the player plays themself and
"wins" (`result = 1`): they record a win and a loss, `games_played` rises
by 2, and the rating drops by 16. -/
theorem recordMatch_self_aliases_witness :
    ((1 : ℤ) = 1 ∨ (1 : ℤ) = 0 ∨ (1 : ℤ) = -1)
    ∧ (⟨[⟨"Solo", 1200, 0, 0, 0, 0⟩]⟩ : RankingSystem).findPlayerIdx "Solo" = some 0
    ∧ (⟨[⟨"Solo", 1200, 0, 0, 0, 0⟩]⟩ : RankingSystem).recordMatch "Solo" "Solo" 1 =
      ⟨modifyIdx (fun p =>
        { p with
          rating := p.rating
            + 32 * ((if (1 : ℤ) = 1 then (0 : ℝ) else if (1 : ℤ) = -1 then 1 else 1 / 2) - 1 / 2),
          gamesPlayed := p.gamesPlayed + 2,
          wins := if (1 : ℤ) = 0 then p.wins else p.wins + 1,
          losses := if (1 : ℤ) = 0 then p.losses else p.losses + 1,
          draws := if (1 : ℤ) = 0 then p.draws + 2 else p.draws })
        [⟨"Solo", 1200, 0, 0, 0, 0⟩] 0⟩ := by
  have hi : (⟨[⟨"Solo", 1200, 0, 0, 0, 0⟩]⟩ : RankingSystem).findPlayerIdx "Solo" = some 0 := by
    unfold RankingSystem.findPlayerIdx
    simp [List.findIdx?_cons]
  exact ⟨Or.inl rfl, hi,
    recordMatch_self_aliases ⟨[⟨"Solo", 1200, 0, 0, 0, 0⟩]⟩ "Solo" 1 0 (Or.inl rfl) hi⟩
